import Mathlib

/-!
Shallow embedding of the trace analyzer (src/analyzer.rs, src/parser.rs) and
verification of its specification claims.

Modelling conventions:
* Rust `i64` values are embedded as `ℤ`; bit-twiddling on event records is done
  on the 64-bit pattern as a `Nat` (every mask in the source covers only bits
  0–62, where two's-complement `i64` AND and shift agree with the `Nat`
  operations).
* `HashMap<i64, Lock>` is an association list with insert-overwrite semantics;
  `HashSet<i64>` is a `Finset ℤ`.
* Fallible reads return `Option`; a Rust `.unwrap()` panic is `Option.none`.
-/

namespace TraceAnalyzer

/-- Operation kinds of a trace event (src/parser.rs, `enum Operation`). -/
inductive Operation where
  | Read
  | Write
  | Acquire
  | Request
  | Release
  | Fork
  | Join
  | Begin
  | End
  | Branch
deriving DecidableEq, Repr

/-- Numeric operation-id decoding (src/parser.rs, `Operation::new`).  The raw
id comes out of the bit-field extraction and is non-negative, so it is taken
as a `Nat`. -/
def Operation.new (value : Nat) : Option Operation :=
  match value with
  | 0 => some Operation.Acquire
  | 1 => some Operation.Release
  | 2 => some Operation.Read
  | 3 => some Operation.Write
  | 4 => some Operation.Fork
  | 5 => some Operation.Join
  | 6 => some Operation.Begin
  | 7 => some Operation.End
  | 8 => some Operation.Request
  | 9 => some Operation.Branch
  | _ => Option.none

/-- Operand of a trace event (src/parser.rs, `enum Operand`). -/
inductive Operand where
  | MemoryLocation (i : ℤ)
  | LockIdentifier (i : ℤ)
  | ThreadIdentifier (i : ℤ)
  | none
deriving DecidableEq, Repr

/-- Operand construction by operation kind (src/parser.rs, `Operand::new`). -/
def Operand.new (operation : Operation) (operand_id : ℤ) : Operand :=
  match operation with
  | Operation.Read => Operand.MemoryLocation operand_id
  | Operation.Write => Operand.MemoryLocation operand_id
  | Operation.Acquire => Operand.LockIdentifier operand_id
  | Operation.Request => Operand.LockIdentifier operand_id
  | Operation.Release => Operand.LockIdentifier operand_id
  | Operation.Fork => Operand.ThreadIdentifier operand_id
  | Operation.Join => Operand.ThreadIdentifier operand_id
  | _ => Operand.none

/-- Contained id of an operand (src/parser.rs, `Operand::id`). -/
def Operand.id (operand : Operand) : Option ℤ :=
  match operand with
  | Operand.MemoryLocation memory_id => some memory_id
  | Operand.LockIdentifier lock_id => some lock_id
  | Operand.ThreadIdentifier thread_id => some thread_id
  | Operand.none => Option.none

/-- One trace event (src/parser.rs, `struct Event`). -/
structure Event where
  thread_identifier : ℤ
  operation : Operation
  operand : Operand
  loc : ℤ
deriving DecidableEq, Repr

/- Header masks (src/analyzer.rs lines 245-248). -/

def NUM_THREADS_MASK : Nat := 0x7FFF

def NUM_LOCKS_MASK : Nat := 0x7FFFFFFF

def NUM_VARS_MASK : Nat := 0x7FFFFFFF

def NUM_EVENTS_MASK : Nat := 0x7FFFFFFFFFFFFFFF

/- Bit-field constants of the RapidBin event record (src/analyzer.rs lines
250-262), reproduced exactly, including the offset each mask is shifted by. -/

def NUM_THREAD_BITS : Nat := 10

def THREAD_BITS_OFFSET : Nat := 0

def NUM_OPERATION_BITS : Nat := 4

def OPERATION_BITS_OFFSET : Nat := THREAD_BITS_OFFSET

def NUM_OPERAND_BITS : Nat := 34

def OPERAND_BITS_OFFSET : Nat := NUM_THREAD_BITS + NUM_OPERATION_BITS

def NUM_LOCATION_BITS : Nat := 15

def LOCATION_BITS_OFFSET : Nat := NUM_THREAD_BITS + NUM_OPERATION_BITS + NUM_OPERAND_BITS

def THREAD_MASK : Nat := ((1 <<< NUM_THREAD_BITS) - 1) <<< THREAD_BITS_OFFSET

def OPERATION_MASK : Nat := ((1 <<< NUM_OPERATION_BITS) - 1) <<< OPERATION_BITS_OFFSET

def OPERAND_MASK : Nat := ((1 <<< NUM_OPERAND_BITS) - 1) <<< OPERATION_BITS_OFFSET

def LOCATION_MASK : Nat := ((1 <<< NUM_LOCATION_BITS) - 1) <<< LOCATION_BITS_OFFSET

/-- Big-endian byte assembly (`i64::from_be_bytes`); bytes are `u8`, embedded
as `Nat` values reduced mod 256.  The result is the 64-bit pattern as a
`Nat`. -/
def i64_from_be_bytes (bytes : List Nat) : Nat :=
  bytes.foldl (fun acc b => acc * 256 + b % 256) 0

/-- RapidBin event decoding (src/analyzer.rs, `try_parse_event`). -/
def try_parse_event (event_buffer : List Nat) : Option Event :=
  let raw_event := i64_from_be_bytes event_buffer
  let thread_identifier := (raw_event &&& THREAD_MASK) >>> THREAD_BITS_OFFSET
  let operation_id := (raw_event &&& OPERATION_MASK) >>> OPERATION_BITS_OFFSET
  let operand_id := (raw_event &&& OPERAND_MASK) >>> OPERAND_BITS_OFFSET
  let loc := (raw_event &&& LOCATION_MASK) >>> LOCATION_BITS_OFFSET
  match Operation.new operation_id with
  | Option.none => Option.none
  | some operation =>
      some { thread_identifier := (thread_identifier : ℤ)
             operation := operation
             operand := Operand.new operation (operand_id : ℤ)
             loc := (loc : ℤ) }

/-- Bit-field extraction as the specification states it (spec section 4.3):
the value of a field of the given width and shift is
`(raw >>> shift) mod 2 ^ width`. -/
def specField (raw width shift : Nat) : Nat :=
  (raw >>> shift) % (2 ^ width)

/-- Violations and errors the analyzer can report (src/error.rs, with the
field sets actually constructed in src/analyzer.rs). -/
inductive AnalyzerError where
  | RepeatedAcquisition (lock_id thread_id owner_id : ℤ) (row : Nat)
  | RepeatedRelease (attempted previous : Nat) (lock_id thread_id : ℤ)
  | ReleasedNonOwningLock (row : Nat) (lock_id thread_id owner : ℤ)
  | ReleasedNonAcquiredLock (row : Nat) (lock_id thread_id : ℤ)
  | UnsupportedFileExtension
deriving DecidableEq, Repr

/-- Per-lock analyzer state (src/analyzer.rs, `struct Lock`). -/
structure Lock where
  owner : Option ℤ
  locked : Bool
  row : Nat
deriving DecidableEq, Repr

/-- One lock-dependency record (src/analyzer.rs, `struct LockDependency`);
the `HashSet<i64>` of held locks is a `Finset ℤ`. -/
structure LockDependency where
  thread_id : ℤ
  lock_id : ℤ
  acquired_locks : Finset ℤ
  line : Nat
deriving DecidableEq

/-- Removal of a lock from a dependency record (src/analyzer.rs,
`LockDependency::remove_lock`). -/
def LockDependency.remove_lock (dependency : LockDependency) (lock_id : ℤ) : LockDependency :=
  { dependency with acquired_locks := dependency.acquired_locks.erase lock_id }

/-- Command-line flags (src/arguments.rs).  The `input` path is used only to
open the file and is not part of the analysis state, so it is omitted here. -/
structure Arguments where
  normalize : Bool
  graph : Bool
  lock_dependencies : Bool
  verbose : Bool
deriving DecidableEq, Repr

/-- `HashMap<i64, Lock>::get`, on the association-list embedding. -/
def lookupLock (locks : List (ℤ × Lock)) (lock_id : ℤ) : Option Lock :=
  (locks.find? (fun p => p.1 == lock_id)).map (fun p => p.2)

/-- `HashMap<i64, Lock>::insert`: overwrite the binding of the key, keeping
keys unique. -/
def insertLock (locks : List (ℤ × Lock)) (lock_id : ℤ) (lock : Lock) : List (ℤ × Lock) :=
  (lock_id, lock) :: locks.filter (fun p => p.1 != lock_id)

/-- All lock ids currently owned by a thread (src/analyzer.rs,
`locks_of_thread`); `owner.is_some() && owner.unwrap() == thread_id` is
exactly `owner == some thread_id`. -/
def locks_of_thread (thread_id : ℤ) (locks : List (ℤ × Lock)) : Finset ℤ :=
  ((locks.filter (fun p => p.2.owner == some thread_id)).map (fun p => p.1)).toFinset

/-- First dependency record of a thread (src/analyzer.rs,
`lock_dependency_of_thread`). -/
def lock_dependency_of_thread (thread_id : ℤ) (lock_dependencies : List LockDependency) :
    Option LockDependency :=
  lock_dependencies.find? (fun dependency => dependency.thread_id == thread_id)

/-- The mutable state `analyze_event` threads through a run: the lock map, the
GraphViz lock-edge set and the dependency list. -/
structure AnalyzerState where
  locks : List (ℤ × Lock)
  graphviz : Finset (ℤ × ℤ)
  lock_dependencies : List LockDependency
deriving DecidableEq

/-- Initial state of a run (src/analyzer.rs, `analyze_trace` locals). -/
def initState : AnalyzerState := { locks := [], graphviz := ∅, lock_dependencies := [] }

/-- The dependency-recording and lock-graph updates performed at the start of
the Acquire arm of `analyze_event` (src/analyzer.rs lines 396-430); they
happen before the violation check, so they persist even when the event then
reports a violation. -/
def acquire_prelude (arguments : Arguments) (event : Event) (lock_id : ℤ)
    (st : AnalyzerState) (line : Nat) : AnalyzerState :=
  let thread_owned_locks := locks_of_thread event.thread_identifier st.locks
  let st1 :=
    if arguments.lock_dependencies then
      let acquired_locks :=
        if thread_owned_locks.card > 0 then thread_owned_locks else (∅ : Finset ℤ)
      let existing := st.lock_dependencies.find? (fun dependency =>
        dependency.thread_id == event.thread_identifier &&
        dependency.lock_id == lock_id &&
        dependency.acquired_locks == thread_owned_locks)
      if existing.isNone then
        { st with lock_dependencies := st.lock_dependencies ++
            [{ thread_id := event.thread_identifier, lock_id := lock_id,
               acquired_locks := acquired_locks, line := line }] }
      else st
    else st
  if arguments.graph then
    { st1 with graphviz := st1.graphviz ∪
        thread_owned_locks.image (fun owned_lock => (owned_lock, lock_id)) }
  else st1

/-- Analysis of a single event (src/analyzer.rs, `analyze_event`).  The outer
`Option` is `none` exactly when the Rust code would panic on an `unwrap`
(operand without an id, or a locked lock with no owner); the `Except` carries
the violation, and the state reflects the mutations performed before a
violation `return`. -/
def analyze_event (arguments : Arguments) (event : Event) (st : AnalyzerState)
    (line : Nat) : Option (Except AnalyzerError Unit × AnalyzerState) :=
  match event.operation with
  | Operation.Acquire =>
    match event.operand.id with
    | Option.none => Option.none
    | some lock_id =>
      let st := acquire_prelude arguments event lock_id st line
      match lookupLock st.locks lock_id with
      | some lock =>
        if lock.locked then
          match lock.owner with
          | Option.none => Option.none
          | some owner_id =>
            if owner_id ≠ event.thread_identifier then
              some (Except.error
                (AnalyzerError.RepeatedAcquisition lock_id event.thread_identifier owner_id line),
                st)
            else
              let lock : Lock :=
                { owner := some event.thread_identifier, locked := true, row := line }
              some (Except.ok (), { st with locks := insertLock st.locks lock_id lock })
        else
          let lock : Lock :=
            { owner := some event.thread_identifier, locked := true, row := line }
          some (Except.ok (), { st with locks := insertLock st.locks lock_id lock })
      | Option.none =>
        let lock : Lock :=
          { owner := some event.thread_identifier, locked := true, row := line }
        some (Except.ok (), { st with locks := insertLock st.locks lock_id lock })
  | Operation.Release =>
    match event.operand.id with
    | Option.none => Option.none
    | some lock_id =>
      -- source lines 458-464: the dependency found for the thread is cloned
      -- and the lock removed from the clone, so the stored list is unchanged
      let _ :=
        if arguments.lock_dependencies then
          (lock_dependency_of_thread event.thread_identifier st.lock_dependencies).map
            (fun lock_dependency => lock_dependency.remove_lock lock_id)
        else Option.none
      match lookupLock st.locks lock_id with
      | Option.none =>
        some (Except.error
          (AnalyzerError.ReleasedNonAcquiredLock line lock_id event.thread_identifier), st)
      | some lock =>
        if !lock.locked then
          some (Except.error
            (AnalyzerError.RepeatedRelease line lock.row lock_id event.thread_identifier), st)
        else
          match lock.owner with
          | some owner =>
            if owner ≠ event.thread_identifier then
              some (Except.error
                (AnalyzerError.ReleasedNonOwningLock line lock_id event.thread_identifier owner),
                st)
            else
              let updated_lock : Lock :=
                { owner := Option.none, locked := false, row := line }
              some (Except.ok (),
                { st with locks := insertLock st.locks lock_id updated_lock })
          | Option.none =>
            let updated_lock : Lock :=
              { owner := Option.none, locked := false, row := line }
            some (Except.ok (),
              { st with locks := insertLock st.locks lock_id updated_lock })
  | _ => some (Except.ok (), st)

/-- The per-event loop shared by both decoders once an `Event` is in hand
(src/analyzer.rs, `analyze_std_trace` lines 234-241): analyze, collect a
possible violation, advance the row by one. -/
def processEvents (arguments : Arguments) :
    List Event → AnalyzerState → Nat → List AnalyzerError →
    Option (AnalyzerState × Nat × List AnalyzerError)
  | [], st, row, errors => some (st, row, errors)
  | event :: rest, st, row, errors =>
    match analyze_event arguments event st row with
    | Option.none => Option.none
    | some (result, st') =>
      let errors' :=
        match result with
        | Except.ok _ => errors
        | Except.error error => errors ++ [error]
      processEvents arguments rest st' (row + 1) errors'

/-- `Read::read_exact` on a byte stream: succeed only when the requested
count is available, consuming it. -/
def readExact (n : Nat) (s : List Nat) : Option (List Nat × List Nat) :=
  if n ≤ s.length then some (s.take n, s.drop n) else Option.none

/-- RapidBin header parsing (src/analyzer.rs, `parse_trace_header`): four
`read_exact` calls (2, 4, 4, 8 bytes), each followed by `.unwrap()`, so a
short read is a panic (`Option.none`).  The masked counts are only logged. -/
def parse_trace_header (s : List Nat) : Option (List Nat) :=
  match readExact 2 s with
  | Option.none => Option.none
  | some (short_buffer, s1) =>
    let num_threads := i64_from_be_bytes short_buffer &&& NUM_THREADS_MASK
    match readExact 4 s1 with
    | Option.none => Option.none
    | some (integer_buffer, s2) =>
      let num_locks := i64_from_be_bytes integer_buffer &&& NUM_LOCKS_MASK
      match readExact 4 s2 with
      | Option.none => Option.none
      | some (integer_buffer2, s3) =>
        let num_variables := i64_from_be_bytes integer_buffer2 &&& NUM_VARS_MASK
        match readExact 8 s3 with
        | Option.none => Option.none
        | some (long_buffer, s4) =>
          let num_events := i64_from_be_bytes long_buffer &&& NUM_EVENTS_MASK
          let _ := (num_threads, num_locks, num_variables, num_events)
          some s4

/-- The RapidBin event loop (src/analyzer.rs, `analyze_rapid_trace` lines
289-303): read 8 bytes at a time; an unparsable record `continue`s — skipping
the `row += 1` at the bottom of the loop — and a short read ends the loop
cleanly. -/
def analyzeRapidEvents (arguments : Arguments) :
    List Nat → AnalyzerState → Nat → List AnalyzerError →
    Option (AnalyzerState × Nat × List AnalyzerError)
  | b0 :: b1 :: b2 :: b3 :: b4 :: b5 :: b6 :: b7 :: rest, st, row, errors =>
    match try_parse_event [b0, b1, b2, b3, b4, b5, b6, b7] with
    | Option.none => analyzeRapidEvents arguments rest st row errors
    | some event =>
      match analyze_event arguments event st row with
      | Option.none => Option.none
      | some (result, st') =>
        let errors' :=
          match result with
          | Except.ok _ => errors
          | Except.error error => errors ++ [error]
        analyzeRapidEvents arguments rest st' (row + 1) errors'
  | _, st, row, errors => some (st, row, errors)

/-- Full RapidBin analysis (src/analyzer.rs, `analyze_rapid_trace`): parse the
header (panicking on a short file), then run the event loop from row 1. -/
def analyze_rapid_trace (arguments : Arguments) (s : List Nat) :
    Option (AnalyzerState × Nat × List AnalyzerError) :=
  match parse_trace_header s with
  | Option.none => Option.none
  | some rest => analyzeRapidEvents arguments rest initState 1 []

/-- Children of one dependency record in the thread-graph construction
(src/analyzer.rs, `analyze_trace` lines 129-142): records of a different
thread, with no lock in common with the entry's held set, whose held set
contains the entry's lock; collected as the set of their thread ids. -/
def childrenOf (lock_dependencies : List LockDependency) (entry : LockDependency) :
    Finset ℤ :=
  (((lock_dependencies.filter (fun other =>
        other.thread_id != entry.thread_id &&
        (other.acquired_locks ∩ entry.acquired_locks).card == 0)).filter
      (fun other => decide (entry.lock_id ∈ other.acquired_locks))).map
    (fun dependency => dependency.thread_id)).toFinset

/-- The edges added to the thread dependency graph (src/analyzer.rs,
`analyze_trace` lines 129-153): for every record, one edge from its thread to
each of its children. -/
def threadGraphEdges (lock_dependencies : List LockDependency) : Finset (ℤ × ℤ) :=
  lock_dependencies.foldr
    (fun entry acc =>
      (childrenOf lock_dependencies entry).image (fun child => (entry.thread_id, child)) ∪ acc)
    ∅

/-- The thread dependency graph `HashMap<i64, HashSet<i64>>`, embedded as an
association list whose value lists carry the (arbitrary) child iteration
order. -/
abbrev DependencyGraph := List (ℤ × List ℤ)

/-- `HashMap::get` on the graph. -/
def graphGet (graph : DependencyGraph) (node : ℤ) : Option (List ℤ) :=
  (graph.find? (fun p => p.1 == node)).map (fun p => p.2)

/-- The `visited` / `recursion_stack` maps `HashMap<i64, bool>`. -/
abbrev VMap := List (ℤ × Bool)

/-- `HashMap::get` on a boolean map. -/
def vget (m : VMap) (node : ℤ) : Option Bool :=
  (m.find? (fun p => p.1 == node)).map (fun p => p.2)

/-- `HashMap::insert` on a boolean map. -/
def vinsert (m : VMap) (node : ℤ) (value : Bool) : VMap :=
  (node, value) :: m.filter (fun p => p.1 != node)

/-- One step of the DFS of src/analyzer.rs, `contains_cycle` (lines
591-617).  `Sum.inl node` is the entry of `contains_cycle` for a node:
mark it visited and on the recursion stack, run the child loop, and clear the
recursion-stack bit only when the loop falls through without returning
`true`.  `Sum.inr children` is the `for child in node` loop (lines 601-611):
descend into unvisited children (an inner `true` is an early return),
otherwise report a back edge when the child is on the recursion stack.  The
Rust recursion terminates because it only descends into unvisited nodes;
here `fuel` (spent once per entry and per loop step) makes the recursion
structural, and exhausting it yields `Option.none`. -/
def cycleStep (graph : DependencyGraph) :
    Nat → Sum ℤ (List ℤ) → VMap → VMap → Option (Bool × VMap × VMap)
  | 0, _, _, _ => Option.none
  | fuel + 1, Sum.inl node, visited, recursion_stack =>
    let visited1 := vinsert visited node true
    let recursion_stack1 := vinsert recursion_stack node true
    match cycleStep graph fuel (Sum.inr ((graphGet graph node).getD []))
        visited1 recursion_stack1 with
    | Option.none => Option.none
    | some (true, v, rs) => some (true, v, rs)
    | some (false, v, rs) => some (false, v, vinsert rs node false)
  | _ + 1, Sum.inr [], visited, recursion_stack => some (false, visited, recursion_stack)
  | fuel + 1, Sum.inr (child :: rest), visited, recursion_stack =>
    if vget visited child = Option.none then
      match cycleStep graph fuel (Sum.inl child) visited recursion_stack with
      | Option.none => Option.none
      | some (true, v, rs) => some (true, v, rs)
      | some (false, v, rs) =>
        if vget rs child = some true then some (true, v, rs)
        else cycleStep graph fuel (Sum.inr rest) v rs
    else
      if vget recursion_stack child = some true then
        some (true, visited, recursion_stack)
      else cycleStep graph fuel (Sum.inr rest) visited recursion_stack

/-- DFS cycle check (src/analyzer.rs, `contains_cycle`): the node-entry case
of `cycleStep`. -/
def contains_cycle (fuel : Nat) (graph : DependencyGraph) (node : ℤ)
    (visited recursion_stack : VMap) : Option (Bool × VMap × VMap) :=
  cycleStep graph fuel (Sum.inl node) visited recursion_stack

/-- A fuel budget sufficient for any run of `cycleStep` on this graph: every
node entry marks a fresh node visited, so entries are bounded by the key
count, and every loop step consumes one child of some entered node. -/
def cycleFuel (graph : DependencyGraph) : Nat :=
  (graph.length + 2) * ((graph.map (fun p => p.2.length)).sum + 2)

/-- The per-key loop of `validate_dependency_graph` (src/analyzer.rs lines
568-575): launch a DFS from every not-yet-visited key and count the launches
that report a cycle. -/
def validateLoop (graph : DependencyGraph) :
    List ℤ → VMap → VMap → Nat → Option Nat
  | [], _, _, found_deadlocks => some found_deadlocks
  | node :: rest, visited, recursion_stack, found_deadlocks =>
    if vget visited node = Option.none ∨ vget visited node = some false then
      match contains_cycle (cycleFuel graph) graph node visited recursion_stack with
      | Option.none => Option.none
      | some (cycle, v, rs) =>
        validateLoop graph rest v rs (if cycle then found_deadlocks + 1 else found_deadlocks)
    else validateLoop graph rest visited recursion_stack found_deadlocks

/-- Deadlock counting over the thread graph (src/analyzer.rs,
`validate_dependency_graph`). -/
def validate_dependency_graph (graph : DependencyGraph) : Option Nat :=
  validateLoop graph (graph.map (fun p => p.1)) [] [] 0

/- Concrete fixtures used by witnesses and counterexamples. -/

/-- A run with every flag off. -/
def argsPlain : Arguments :=
  { normalize := false, graph := false, lock_dependencies := false, verbose := false }

/-- A run with only the lock-dependencies flag on. -/
def argsDeps : Arguments :=
  { normalize := false, graph := false, lock_dependencies := true, verbose := false }

/- Helper lemmas about the association-list maps. -/

/-- Inserting and reading back the same key on a boolean map. -/
theorem vget_vinsert_self (m : VMap) (node : ℤ) (value : Bool) :
    vget (vinsert m node value) node = some value := by
  simp [vget, vinsert]

/-- Reading back the key just inserted into the lock map. -/
theorem lookupLock_insertLock_self (locks : List (ℤ × Lock)) (lock_id : ℤ) (lock : Lock) :
    lookupLock (insertLock locks lock_id lock) lock_id = some lock := by
  simp [lookupLock, insertLock]

/-- `find?` does not see entries removed by filtering out a different key. -/
theorem find?_filter_ne (locks : List (ℤ × Lock)) (k k' : ℤ) (hne : k' ≠ k) :
    (locks.filter (fun p => p.1 != k)).find? (fun p => p.1 == k') =
      locks.find? (fun p => p.1 == k') := by
  induction locks with
  | nil => rfl
  | cons head tail ih =>
    by_cases hk : head.1 = k
    · have hbeq : (head.1 == k') = false := by
        rw [beq_eq_false_iff_ne, hk]
        exact fun hh => hne hh.symm
      rw [List.filter_cons_of_neg (by simp [hk]), List.find?_cons, hbeq]
      exact ih
    · rw [List.filter_cons_of_pos (by simp [hk])]
      by_cases hk' : (head.1 == k') = true
      · rw [List.find?_cons, List.find?_cons, hk']
      · have hb : (head.1 == k') = false := by simpa using hk'
        rw [List.find?_cons, List.find?_cons, hb]
        exact ih

/-- Reading any key after an insert into the lock map. -/
theorem lookupLock_insertLock (locks : List (ℤ × Lock)) (k k' : ℤ) (lock : Lock) :
    lookupLock (insertLock locks k lock) k' =
      if k' = k then some lock else lookupLock locks k' := by
  by_cases h : k' = k
  · subst h
    simp [lookupLock_insertLock_self]
  · have hbeq : (k == k') = false := by
      rw [beq_eq_false_iff_ne]
      exact fun hh => h hh.symm
    unfold lookupLock insertLock
    rw [List.find?_cons]
    simp only [hbeq]
    rw [find?_filter_ne locks k k' h, if_neg h]

/-- The Acquire prelude never touches the lock map. -/
theorem acquire_prelude_locks (arguments : Arguments) (event : Event) (lock_id : ℤ)
    (st : AnalyzerState) (line : Nat) :
    (acquire_prelude arguments event lock_id st line).locks = st.locks := by
  unfold acquire_prelude
  dsimp only
  split_ifs <;> rfl

/-- Claim C1: the claim (and spec section 4.3) state that the decoder takes
the operation id from bits 10-13 and the operand from bits 14-47 of the
big-endian record.  The code does not: `OPERATION_BITS_OFFSET` is defined as
`THREAD_BITS_OFFSET` (0), so the operation id is taken from bits 0-3, and
`OPERAND_MASK` is shifted by that same offset while the extraction shifts by
`OPERAND_BITS_OFFSET`, so the operand comes from bits 14-33 only.  Witnessed
on the record `1 <<< 10` (bytes 00 00 00 00 00 00 04 00), which the spec
layout reads as operation id 1 (Release) but the code decodes as an Acquire,
and on the record `1 <<< 34`, whose operand is 0 under the code but
`1 <<< 20` under the spec layout. -/
theorem C1_bit_extraction_differs_from_spec :
    try_parse_event [0, 0, 0, 0, 0, 0, 4, 0] =
      some { thread_identifier := 0, operation := Operation.Acquire,
             operand := Operand.LockIdentifier 0, loc := 0 } ∧
    specField (1 <<< 10) NUM_OPERATION_BITS 10 = 1 ∧
    Operation.new 1 = some Operation.Release ∧
    ((1 <<< 10) &&& OPERATION_MASK) >>> OPERATION_BITS_OFFSET = 0 ∧
    ((1 <<< 34) &&& OPERAND_MASK) >>> OPERAND_BITS_OFFSET = 0 ∧
    specField (1 <<< 34) NUM_OPERAND_BITS 14 = 1 <<< 20 := by
  refine ⟨?_, ?_, ?_, ?_, ?_, ?_⟩ <;> decide

/-- Closed form of the header parse: it succeeds (consuming 18 bytes)
exactly when 18 bytes are available, and panics otherwise. -/
theorem parse_trace_header_eq (s : List Nat) :
    parse_trace_header s = if 18 ≤ s.length then some (s.drop 18) else Option.none := by
  unfold parse_trace_header readExact
  by_cases h2 : 2 ≤ s.length
  · rw [if_pos h2]
    dsimp only
    by_cases h6 : 4 ≤ (s.drop 2).length
    · rw [if_pos h6]
      dsimp only
      by_cases h10 : 4 ≤ ((s.drop 2).drop 4).length
      · rw [if_pos h10]
        dsimp only
        by_cases h18 : 8 ≤ (((s.drop 2).drop 4).drop 4).length
        · rw [if_pos h18]
          dsimp only
          rw [if_pos (by simp only [List.length_drop] at h18 ⊢; omega)]
          simp only [List.drop_drop, Option.some_inj]
        · rw [if_neg h18,
            if_neg (by simp only [List.length_drop] at h18 ⊢; intro hc; exact h18 (by omega))]
      · rw [if_neg h10,
          if_neg (by simp only [List.length_drop] at h10 ⊢; intro hc; exact h10 (by omega))]
    · rw [if_neg h6,
        if_neg (by simp only [List.length_drop] at h6 ⊢; intro hc; exact h6 (by omega))]
  · rw [if_neg h2, if_neg (by intro hc; exact h2 (by omega))]

/-- Claim C10: a `.data` input shorter than the 18-byte header makes the
decoder panic (`parse_trace_header` hits an `unwrap` of a failed
`read_exact`, `Option.none` here) rather than record a violation, and this
happens exactly for inputs shorter than 18 bytes; a short read after the
header (fewer than 8 bytes left) ends the event loop cleanly with the state,
row and violation list intact. -/
theorem C10_short_header_panics (s : List Nat) :
    (parse_trace_header s = Option.none ↔ s.length < 18) ∧
    (∀ (arguments : Arguments) (st : AnalyzerState) (row : Nat)
        (errors : List AnalyzerError), s.length < 8 →
      analyzeRapidEvents arguments s st row errors = some (st, row, errors)) := by
  constructor
  · rw [parse_trace_header_eq]
    split_ifs with h
    · simp only [reduceCtorEq, false_iff]
      omega
    · simp only [true_iff]
      omega
  · intro arguments st row errors hshort
    rcases s with _ | ⟨a0, _ | ⟨a1, _ | ⟨a2, _ | ⟨a3, _ | ⟨a4, _ | ⟨a5, _ | ⟨a6, _ | ⟨a7, t⟩⟩⟩⟩⟩⟩⟩⟩
    · rfl
    · rfl
    · rfl
    · rfl
    · rfl
    · rfl
    · rfl
    · rfl
    · simp at hshort
      omega

/-- Witness for C10 at the 3-byte input. -/
theorem C10_short_header_panics_witness :
    ([0, 0, 0] : List Nat).length < 8 ∧
    (parse_trace_header [0, 0, 0] = Option.none ↔ ([0, 0, 0] : List Nat).length < 18) ∧
    analyzeRapidEvents argsPlain [0, 0, 0] initState 1 [] = some (initState, 1, []) :=
  ⟨by decide, (C10_short_header_panics [0, 0, 0]).1,
    (C10_short_header_panics [0, 0, 0]).2 argsPlain initState 1 [] (by decide)⟩

/-- Claim C4, counterexample: after the 18-byte header, a single record with
operation id 10 (unknown) is silently skipped, but the row counter does NOT
advance: the loop `continue`s before `row += 1`, so the final row is still 1,
not the 2 the claim's "the row counter still advances by one" requires. -/
theorem C4_counterexample_row_not_advanced :
    (analyze_rapid_trace argsPlain
        (List.replicate 18 0 ++ [0, 0, 0, 0, 0, 0, 0, 10])).map (fun r => r.2.1) = some 1 ∧
    (analyze_rapid_trace argsPlain
        (List.replicate 18 0 ++ [0, 0, 0, 0, 0, 0, 0, 10])).map (fun r => r.2.1) ≠ some 2 := by
  constructor
  · decide
  · decide

/-- Claim C4 as amended: a record with an unknown operation id is silently
skipped — no violation is recorded, the state is untouched — and the row
counter does not advance, so row numbers index successfully decoded events
rather than physical record positions. -/
theorem C4_unknown_op_skipped_without_row_advance (arguments : Arguments)
    (b0 b1 b2 b3 b4 b5 b6 b7 : Nat) (rest : List Nat) (st : AnalyzerState)
    (row : Nat) (errors : List AnalyzerError)
    (h : try_parse_event [b0, b1, b2, b3, b4, b5, b6, b7] = Option.none) :
    analyzeRapidEvents arguments (b0 :: b1 :: b2 :: b3 :: b4 :: b5 :: b6 :: b7 :: rest)
        st row errors =
      analyzeRapidEvents arguments rest st row errors := by
  rw [analyzeRapidEvents, h]

/-- Witness for C4's amended claim on a concrete unknown-operation record. -/
theorem C4_unknown_op_skipped_witness :
    try_parse_event [0, 0, 0, 0, 0, 0, 0, 10] = Option.none ∧
    analyzeRapidEvents argsPlain [0, 0, 0, 0, 0, 0, 0, 10] initState 1 [] =
      analyzeRapidEvents argsPlain [] initState 1 [] :=
  ⟨by decide, C4_unknown_op_skipped_without_row_advance argsPlain 0 0 0 0 0 0 0 10 []
    initState 1 [] (by decide)⟩

/-- Claim C7, counterexample: on the one-node graph with a self loop, the DFS
from node 0 reports a cycle and returns with node 0 still flagged on the
recursion stack — the flag is cleared only on the cycle-free way out, not
"whenever the DFS returns from a node". -/
theorem C7_counterexample_flag_kept_on_cycle :
    contains_cycle 2 [(0, [0])] 0 [] [] = some (true, [(0, true)], [(0, true)]) ∧
    vget [(0, true)] 0 ≠ some false := by
  constructor
  · decide
  · decide

/-- Claim C7 as amended: whenever the DFS returns from a node without
reporting a cycle, that node's on-recursion-stack flag is cleared; on the
early `return true` paths the flag is left set (see the counterexample). -/
theorem C7_flag_cleared_on_cycle_free_return (fuel : Nat) (graph : DependencyGraph)
    (node : ℤ) (visited recursion_stack v rs : VMap)
    (h : contains_cycle fuel graph node visited recursion_stack = some (false, v, rs)) :
    vget rs node = some false := by
  unfold contains_cycle at h
  match fuel with
  | 0 => simp [cycleStep] at h
  | fuel + 1 =>
    rw [cycleStep] at h
    split at h
    · exact absurd h (by simp)
    · exact absurd h (by simp)
    · rename_i v2 rs2 heq
      rw [Option.some_inj, Prod.mk.injEq, Prod.mk.injEq] at h
      rw [← h.2.2]
      exact vget_vinsert_self rs2 node false

/-- Witness for C7's amended claim: a cycle-free single-node graph. -/
theorem C7_flag_cleared_witness :
    contains_cycle 2 [(0, ([] : List ℤ))] 0 [] [] = some (false, [(0, true)], [(0, false)]) ∧
    vget [(0, false)] 0 = some false :=
  ⟨by decide, C7_flag_cleared_on_cycle_free_return 2 [(0, [])] 0 [] [] [(0, true)] [(0, false)]
    (by decide)⟩

/-- An Acquire of lock 0 by thread 2. -/
def evC2 : Event :=
  { thread_identifier := 2, operation := Operation.Acquire,
    operand := Operand.LockIdentifier 0, loc := 0 }

/-- A state in which lock 0 is held by thread 1 since row 1. -/
def stC2 : AnalyzerState :=
  { locks := [(0, { owner := some 1, locked := true, row := 1 })], graphviz := ∅,
    lock_dependencies := [] }

/-- Claim C2, counterexample: when thread 2 acquires lock 0 while thread 1
holds it, the violation path `return`s before the lock map update, so lock 0
afterwards still reads `{owner=Some(1), locked=true, row=1}`, not the
`{owner=Some(2), locked=true, row=2}` the claim's "in every case" requires. -/
theorem C2_counterexample_lock_unchanged_on_violation :
    (analyze_event argsPlain evC2 stC2 2).map (fun r => lookupLock r.2.locks 0) =
      some (some { owner := some 1, locked := true, row := 1 }) ∧
    some (some ({ owner := some 1, locked := true, row := 1 } : Lock)) ≠
      some (some ({ owner := some 2, locked := true, row := 2 } : Lock)) := by
  constructor
  · decide
  · decide

/-- Claim C2 as amended: on Acquire(T, L, r), if L is currently held by an
owner different from T, a RepeatedAcquisition violation is recorded and the
lock map is left unchanged (only the dependency/graph prelude state may
change); whenever no violation is recorded, L's state afterwards is
`{owner=Some(T), locked=true, row=r}`. -/
theorem C2_acquire_violation_keeps_lock (arguments : Arguments) (event : Event)
    (st : AnalyzerState) (line : Nat) (lock_id : ℤ)
    (hop : event.operation = Operation.Acquire)
    (hoperand : event.operand = Operand.LockIdentifier lock_id) :
    (∀ lock owner_id, lookupLock st.locks lock_id = some lock → lock.locked = true →
      lock.owner = some owner_id → owner_id ≠ event.thread_identifier →
      analyze_event arguments event st line =
        some (Except.error (AnalyzerError.RepeatedAcquisition lock_id
            event.thread_identifier owner_id line),
          acquire_prelude arguments event lock_id st line) ∧
      (acquire_prelude arguments event lock_id st line).locks = st.locks) ∧
    (∀ result st', analyze_event arguments event st line = some (result, st') →
      result = Except.ok () →
      lookupLock st'.locks lock_id =
        some { owner := some event.thread_identifier, locked := true, row := line }) := by
  obtain ⟨tid, op, opnd, lc⟩ := event
  dsimp only at hop hoperand
  subst hop
  subst hoperand
  constructor
  · intro lock owner_id hlk hlocked howner hne
    refine ⟨?_, acquire_prelude_locks ..⟩
    unfold analyze_event
    dsimp only [Operand.id]
    rw [acquire_prelude_locks, hlk]
    try dsimp only
    rw [hlocked]
    try dsimp only
    rw [howner]
    try dsimp only
    rw [if_pos hne]
    exact if_pos (Eq.refl true)
  · intro result st' h hok
    subst hok
    unfold analyze_event at h
    dsimp only [Operand.id] at h
    rw [acquire_prelude_locks] at h
    rcases hcase : lookupLock st.locks lock_id with _ | lock
    · rw [hcase] at h
      try dsimp only at h
      rw [Option.some_inj, Prod.mk.injEq] at h
      rw [← h.2]
      exact lookupLock_insertLock_self ..
    · rw [hcase] at h
      try dsimp only at h
      rcases hl : lock.locked with _ | _
      · rw [hl] at h
        rw [if_neg (by decide)] at h
        rw [Option.some_inj, Prod.mk.injEq] at h
        rw [← h.2]
        exact lookupLock_insertLock_self ..
      · rw [hl] at h
        rw [if_pos (Eq.refl true)] at h
        rcases ho : lock.owner with _ | owner_id
        · rw [ho] at h
          try dsimp only at h
          simp at h
        · rw [ho] at h
          try dsimp only at h
          by_cases hne : owner_id ≠ tid
          · rw [if_pos hne] at h
            rw [Option.some_inj, Prod.mk.injEq] at h
            exact absurd h.1 (by simp)
          · rw [if_neg hne] at h
            rw [Option.some_inj, Prod.mk.injEq] at h
            rw [← h.2]
            exact lookupLock_insertLock_self ..

/-- Witness for C2's amended claim at the concrete held-by-other state. -/
theorem C2_acquire_violation_witness :
    evC2.operation = Operation.Acquire ∧ evC2.operand = Operand.LockIdentifier 0 ∧
    lookupLock stC2.locks 0 = some { owner := some 1, locked := true, row := 1 } ∧
    analyze_event argsPlain evC2 stC2 2 =
      some (Except.error (AnalyzerError.RepeatedAcquisition 0 2 1 2),
        acquire_prelude argsPlain evC2 0 stC2 2) ∧
    (acquire_prelude argsPlain evC2 0 stC2 2).locks = stC2.locks :=
  ⟨rfl, rfl, rfl,
    ((C2_acquire_violation_keeps_lock argsPlain evC2 stC2 2 0 rfl rfl).1
      { owner := some 1, locked := true, row := 1 } 1 rfl rfl rfl (by decide)).1,
    ((C2_acquire_violation_keeps_lock argsPlain evC2 stC2 2 0 rfl rfl).1
      { owner := some 1, locked := true, row := 1 } 1 rfl rfl rfl (by decide)).2⟩

/-- Claim C3: on Release(T, L, r), the three violations are checked in the
order never-seen, currently-free, owned-by-another; each violation leaves the
whole state (lock map included) unchanged, and only the violation-free case
rewrites L's state to `{owner=None, locked=false, row=r}`. -/
theorem C3_release_precedence (arguments : Arguments) (event : Event)
    (st : AnalyzerState) (line : Nat) (lock_id : ℤ)
    (hop : event.operation = Operation.Release)
    (hoperand : event.operand = Operand.LockIdentifier lock_id) :
    (lookupLock st.locks lock_id = Option.none →
      analyze_event arguments event st line =
        some (Except.error (AnalyzerError.ReleasedNonAcquiredLock line lock_id
          event.thread_identifier), st)) ∧
    (∀ lock, lookupLock st.locks lock_id = some lock → lock.locked = false →
      analyze_event arguments event st line =
        some (Except.error (AnalyzerError.RepeatedRelease line lock.row lock_id
          event.thread_identifier), st)) ∧
    (∀ lock owner, lookupLock st.locks lock_id = some lock → lock.locked = true →
      lock.owner = some owner → owner ≠ event.thread_identifier →
      analyze_event arguments event st line =
        some (Except.error (AnalyzerError.ReleasedNonOwningLock line lock_id
          event.thread_identifier owner), st)) ∧
    (∀ lock, lookupLock st.locks lock_id = some lock → lock.locked = true →
      lock.owner = some event.thread_identifier →
      let releasedAt : Lock := { owner := Option.none, locked := false, row := line }
      analyze_event arguments event st line =
        some (Except.ok (),
          { st with locks := insertLock st.locks lock_id releasedAt })) := by
  obtain ⟨tid, op, opnd, lc⟩ := event
  dsimp only at hop hoperand
  subst hop
  subst hoperand
  refine ⟨?_, ?_, ?_, ?_⟩
  · intro hnone
    unfold analyze_event
    dsimp only [Operand.id]
    rw [hnone]
  · intro lock hlk hfree
    unfold analyze_event
    dsimp only [Operand.id]
    rw [hlk]
    try dsimp only
    rw [hfree, Bool.not_false]
    exact if_pos (Eq.refl true)
  · intro lock owner hlk hlocked howner hne
    unfold analyze_event
    dsimp only [Operand.id]
    rw [hlk]
    try dsimp only
    rw [hlocked, Bool.not_true, if_neg (by decide)]
    rw [howner]
    try dsimp only
    rw [if_pos hne]
  · intro lock hlk hlocked howner
    try dsimp only
    unfold analyze_event
    dsimp only [Operand.id]
    rw [hlk]
    try dsimp only
    rw [hlocked, Bool.not_true, if_neg (by decide)]
    rw [howner]
    try dsimp only
    rw [if_neg (by exact fun hc => hc rfl)]

/-- A Release of lock 7 by thread 1. -/
def evC3 : Event :=
  { thread_identifier := 1, operation := Operation.Release,
    operand := Operand.LockIdentifier 7, loc := 0 }

/-- Witness for C3 at a concrete never-seen lock (empty lock map). -/
theorem C3_release_precedence_witness :
    evC3.operation = Operation.Release ∧ evC3.operand = Operand.LockIdentifier 7 ∧
    lookupLock initState.locks 7 = Option.none ∧
    analyze_event argsPlain evC3 initState 1 =
      some (Except.error (AnalyzerError.ReleasedNonAcquiredLock 1 7 1), initState) :=
  ⟨rfl, rfl, rfl,
    (C3_release_precedence argsPlain evC3 initState 1 7 rfl rfl).1 rfl⟩

/-- The dependency record of thread 1: lock 5 acquired while holding lock 7. -/
def depC5 : LockDependency :=
  { thread_id := 1, lock_id := 5, acquired_locks := {7}, line := 1 }

/-- A lock-dependencies run state: lock 7 held by thread 1, one dependency
record. -/
def stC5 : AnalyzerState :=
  { locks := [(7, { owner := some 1, locked := true, row := 1 })], graphviz := ∅,
    lock_dependencies := [depC5] }

/-- Claim C5: on Release(T1, L7) with the lock-dependencies flag on, the
source calls `remove_lock` on a CLONE of the first dependency of the thread
and discards the result, so the persisted list still carries lock 7 in the
record's acquired set; the discarded clone is what the claim expected to be
stored. -/
theorem C5_release_removal_not_persisted :
    (analyze_event argsDeps evC3 stC5 2).map (fun r => r.2.lock_dependencies) =
      some [depC5] ∧
    (7 : ℤ) ∈ depC5.acquired_locks ∧
    (depC5.remove_lock 7).acquired_locks = ∅ := by
  refine ⟨?_, ?_, ?_⟩
  · decide
  · decide
  · decide

/-- Membership in the fold that accumulates the per-record edge images. -/
theorem mem_threadGraphFold (full : List LockDependency) (l : List LockDependency) (t c : ℤ) :
    ((t, c) ∈ l.foldr (fun entry acc =>
        (childrenOf full entry).image (fun child => (entry.thread_id, child)) ∪ acc) ∅) ↔
      ∃ e ∈ l, (t, c) ∈ (childrenOf full e).image (fun child => (e.thread_id, child)) := by
  induction l with
  | nil => simp
  | cons head tail ih => simp [List.foldr_cons, Finset.mem_union, ih]

/-- Membership in a record's child set, unfolded to the three filter
conditions of the source. -/
theorem mem_childrenOf (full : List LockDependency) (entry : LockDependency) (c : ℤ) :
    c ∈ childrenOf full entry ↔
      ∃ other ∈ full, other.thread_id ≠ entry.thread_id ∧
        other.acquired_locks ∩ entry.acquired_locks = ∅ ∧
        entry.lock_id ∈ other.acquired_locks ∧ other.thread_id = c := by
  unfold childrenOf
  simp only [List.mem_toFinset, List.mem_map, List.mem_filter, Bool.and_eq_true,
    bne_iff_ne, beq_iff_eq, decide_eq_true_eq, Finset.card_eq_zero, ne_eq]
  constructor
  · rintro ⟨other, ⟨⟨⟨ho, hne, hdisj⟩, hlock⟩, hthread⟩⟩
    exact ⟨other, ho, hne, hdisj, hlock, hthread⟩
  · rintro ⟨other, ho, hne, hdisj, hlock, hthread⟩
    exact ⟨other, ⟨⟨⟨ho, hne, hdisj⟩, hlock⟩, hthread⟩⟩

/-- Claim C6: an edge (t, c) is in the thread dependency graph exactly when
some record of thread t has a child record of thread c: a record of a
different thread whose held set shares no lock with the entry's held set (no
guard lock) and contains the entry's lock. -/
theorem C6_thread_graph_edge_iff (lock_dependencies : List LockDependency) (t c : ℤ) :
    (t, c) ∈ threadGraphEdges lock_dependencies ↔
      ∃ entry ∈ lock_dependencies, entry.thread_id = t ∧
        ∃ other ∈ lock_dependencies, other.thread_id = c ∧ c ≠ t ∧
          other.acquired_locks ∩ entry.acquired_locks = ∅ ∧
          entry.lock_id ∈ other.acquired_locks := by
  unfold threadGraphEdges
  rw [mem_threadGraphFold]
  constructor
  · rintro ⟨e, he, hmem⟩
    rw [Finset.mem_image] at hmem
    obtain ⟨child, hchild, heq⟩ := hmem
    injection heq with h1 h2
    subst h1
    subst h2
    rw [mem_childrenOf] at hchild
    obtain ⟨other, ho, hne, hdisj, hlock, hthread⟩ := hchild
    exact ⟨e, he, rfl, other, ho, hthread, by rw [← hthread]; exact hne, hdisj, hlock⟩
  · rintro ⟨entry, he, hthreadt, other, ho, hthreadc, hct, hdisj, hlock⟩
    refine ⟨entry, he, ?_⟩
    rw [Finset.mem_image]
    refine ⟨c, (mem_childrenOf lock_dependencies entry c).mpr
      ⟨other, ho, ?_, hdisj, hlock, hthreadc⟩, by rw [hthreadt]⟩
    rw [hthreadc, hthreadt]
    exact hct

/-- Thread 1 acquires lock 5 holding nothing. -/
def depC6a : LockDependency :=
  { thread_id := 1, lock_id := 5, acquired_locks := ∅, line := 1 }

/-- Thread 2 acquires lock 9 while holding lock 5. -/
def depC6b : LockDependency :=
  { thread_id := 2, lock_id := 9, acquired_locks := {5}, line := 2 }

/-- Witness for C6 on a two-record dependency list with the edge 1 → 2. -/
theorem C6_thread_graph_edge_witness :
    ((1 : ℤ), (2 : ℤ)) ∈ threadGraphEdges [depC6a, depC6b] :=
  (C6_thread_graph_edge_iff [depC6a, depC6b] 1 2).mpr (by decide)

/-- Two dependency records agree on the duplicate-suppression key of
src/analyzer.rs lines 405-409: thread, lock, and held set. -/
def sameDependencyKey (a b : LockDependency) : Prop :=
  a.thread_id = b.thread_id ∧ a.lock_id = b.lock_id ∧ a.acquired_locks = b.acquired_locks

/-- The conditional copy of the held set in the Acquire arm (lines 399-403)
is the held set itself. -/
theorem acquired_locks_ite (s : Finset ℤ) : (if s.card > 0 then s else ∅) = s := by
  split_ifs with h
  · rfl
  · have hz : s.card = 0 := by omega
    rw [(Finset.card_eq_zero.mp hz)]

/-- The graph step of the Acquire prelude never touches the dependency
list. -/
theorem graph_if_deps (c : Prop) [Decidable c] (st1 : AnalyzerState) (Y : Finset (ℤ × ℤ)) :
    (if c then { st1 with graphviz := st1.graphviz ∪ Y } else st1).lock_dependencies =
      st1.lock_dependencies := by
  split_ifs <;> rfl

/-- The Acquire prelude preserves key-distinctness of the dependency list: a
record is appended only when `find?` saw no record with the same key. -/
theorem acquire_prelude_dep_nodup (arguments : Arguments) (event : Event) (lock_id : ℤ)
    (st : AnalyzerState) (line : Nat)
    (hp : st.lock_dependencies.Pairwise (fun a b => ¬ sameDependencyKey a b)) :
    (acquire_prelude arguments event lock_id st line).lock_dependencies.Pairwise
      (fun a b => ¬ sameDependencyKey a b) := by
  unfold acquire_prelude
  dsimp only
  rw [graph_if_deps]
  by_cases hdep : arguments.lock_dependencies = true
  · rw [if_pos hdep]
    by_cases hfind : (st.lock_dependencies.find? (fun dependency =>
        dependency.thread_id == event.thread_identifier &&
        dependency.lock_id == lock_id &&
        dependency.acquired_locks ==
          locks_of_thread event.thread_identifier st.locks)).isNone = true
    · rw [if_pos hfind]
      dsimp only
      rw [acquired_locks_ite, List.pairwise_append]
      refine ⟨hp, List.pairwise_singleton .., ?_⟩
      intro a ha b hb
      rw [List.mem_singleton] at hb
      subst hb
      rw [Option.isNone_iff_eq_none, List.find?_eq_none] at hfind
      rintro ⟨h1, h2, h3⟩
      refine hfind a ha ?_
      dsimp only at h1 h2 h3
      try rw [acquired_locks_ite] at h3
      simp [h1, h2, h3]
    · rw [if_neg hfind]
      exact hp
  · rw [if_neg hdep]
    exact hp

/-- The effect of one event on the dependency list: unchanged, except that an
Acquire runs the prelude on it. -/
theorem analyze_event_deps (arguments : Arguments) (event : Event) (st : AnalyzerState)
    (line : Nat) (result : Except AnalyzerError Unit) (st' : AnalyzerState)
    (h : analyze_event arguments event st line = some (result, st')) :
    st'.lock_dependencies = st.lock_dependencies ∨
    (∃ lock_id, st'.lock_dependencies =
      (acquire_prelude arguments event lock_id st line).lock_dependencies) := by
  obtain ⟨tid, op, opnd, lc⟩ := event
  cases op <;>
    first
    | (unfold analyze_event at h
       dsimp only at h
       rw [Option.some_inj, Prod.mk.injEq] at h
       exact Or.inl (by rw [← h.2]))
    | (unfold analyze_event at h
       try dsimp only at h
       rcases hid : Operand.id opnd with _ | lock_id <;> rw [hid] at h
       · simp at h
       · try dsimp only at h
         repeat' split at h
         all_goals
           first
           | (rw [Option.some_inj, Prod.mk.injEq] at h
              obtain ⟨h1, h2⟩ := h
              subst h2
              first
              | exact Or.inl rfl
              | exact Or.inr ⟨lock_id, rfl⟩)
           | simp at h)

/-- One analyzed event preserves key-distinctness of the dependency list. -/
theorem analyze_event_dep_nodup (arguments : Arguments) (event : Event) (st : AnalyzerState)
    (line : Nat) (result : Except AnalyzerError Unit) (st' : AnalyzerState)
    (h : analyze_event arguments event st line = some (result, st'))
    (hp : st.lock_dependencies.Pairwise (fun a b => ¬ sameDependencyKey a b)) :
    st'.lock_dependencies.Pairwise (fun a b => ¬ sameDependencyKey a b) := by
  rcases analyze_event_deps arguments event st line result st' h with heq | ⟨lock_id, heq⟩
  · rw [heq]
    exact hp
  · rw [heq]
    exact acquire_prelude_dep_nodup arguments event lock_id st line hp

/-- The event loop preserves key-distinctness of the dependency list. -/
theorem processEvents_dep_nodup (arguments : Arguments) (events : List Event) :
    ∀ (st : AnalyzerState) (row : Nat) (errors : List AnalyzerError)
      (st' : AnalyzerState) (row' : Nat) (errors' : List AnalyzerError),
      processEvents arguments events st row errors = some (st', row', errors') →
      st.lock_dependencies.Pairwise (fun a b => ¬ sameDependencyKey a b) →
      st'.lock_dependencies.Pairwise (fun a b => ¬ sameDependencyKey a b) := by
  induction events with
  | nil =>
    intro st row errors st' row' errors' h hp
    unfold processEvents at h
    rw [Option.some_inj, Prod.mk.injEq] at h
    rw [← h.1]
    exact hp
  | cons event rest ih =>
    intro st row errors st' row' errors' h hp
    unfold processEvents at h
    rcases ha : analyze_event arguments event st row with _ | ⟨result, stm⟩ <;> rw [ha] at h
    · simp at h
    · exact ih stm (row + 1) _ st' row' errors' h
        (analyze_event_dep_nodup arguments event st row result stm ha hp)

/-- Claim C8: at every point of a run, the dependency list holds no two
records that agree on (thread_id, lock_id, acquired_locks): a record is
appended only when no record with that key exists, and no other code path
modifies the list. -/
theorem C8_no_duplicate_dependency_keys (arguments : Arguments) (events : List Event)
    (st : AnalyzerState) (row : Nat) (errors : List AnalyzerError)
    (h : processEvents arguments events initState 1 [] = some (st, row, errors)) :
    st.lock_dependencies.Pairwise (fun a b => ¬ sameDependencyKey a b) :=
  processEvents_dep_nodup arguments events initState 1 [] st row errors h List.Pairwise.nil

/-- A first Acquire of lock 5 by thread 1. -/
def evAcq : Event :=
  { thread_identifier := 1, operation := Operation.Acquire,
    operand := Operand.LockIdentifier 5, loc := 0 }

/-- The state after that Acquire in a lock-dependencies run. -/
def stAfterAcq : AnalyzerState :=
  { locks := [(5, { owner := some 1, locked := true, row := 1 })], graphviz := ∅,
    lock_dependencies := [{ thread_id := 1, lock_id := 5, acquired_locks := ∅, line := 1 }] }

/-- Witness for C8 on a one-event lock-dependencies run. -/
theorem C8_no_duplicate_dependency_keys_witness :
    processEvents argsDeps [evAcq] initState 1 [] = some (stAfterAcq, 2, []) ∧
    stAfterAcq.lock_dependencies.Pairwise (fun a b => ¬ sameDependencyKey a b) :=
  ⟨by decide, C8_no_duplicate_dependency_keys argsDeps [evAcq] stAfterAcq 2 [] (by decide)⟩

/-- The lock-map invariant of spec section 8: a lock is flagged locked
exactly when it has an owner. -/
def locksConsistent (locks : List (ℤ × Lock)) : Prop :=
  ∀ k lock, lookupLock locks k = some lock → (lock.locked = true ↔ lock.owner.isSome = true)

/-- Inserting a consistent lock preserves the lock-map invariant. -/
theorem locksConsistent_insert (m : List (ℤ × Lock)) (k : ℤ) (new : Lock)
    (hm : locksConsistent m) (hnew : new.locked = true ↔ new.owner.isSome = true) :
    locksConsistent (insertLock m k new) := by
  intro k' lock h
  rw [lookupLock_insertLock] at h
  split_ifs at h with hk
  · rw [Option.some_inj] at h
    rw [← h]
    exact hnew
  · exact hm k' lock h

/-- The effect of one event on the lock map: unchanged, or one insert of a
freshly acquired lock `{owner=Some(T), locked=true, row=line}`, or one insert
of a released lock `{owner=None, locked=false, row=line}`. -/
theorem analyze_event_locks (arguments : Arguments) (event : Event) (st : AnalyzerState)
    (line : Nat) (result : Except AnalyzerError Unit) (st' : AnalyzerState)
    (h : analyze_event arguments event st line = some (result, st')) :
    st'.locks = st.locks ∨
    (∃ lock_id, st'.locks = insertLock st.locks lock_id
      { owner := some event.thread_identifier, locked := true, row := line }) ∨
    (∃ lock_id, st'.locks = insertLock st.locks lock_id
      { owner := Option.none, locked := false, row := line }) := by
  obtain ⟨tid, op, opnd, lc⟩ := event
  cases op <;>
    first
    | (unfold analyze_event at h
       dsimp only at h
       rw [Option.some_inj, Prod.mk.injEq] at h
       obtain ⟨h1, h2⟩ := h
       subst h2
       exact Or.inl rfl)
    | (unfold analyze_event at h
       try dsimp only at h
       rcases hid : Operand.id opnd with _ | lock_id <;> rw [hid] at h
       · simp at h
       · try dsimp only at h
         repeat' split at h
         all_goals
           first
           | (rw [Option.some_inj, Prod.mk.injEq] at h
              obtain ⟨h1, h2⟩ := h
              subst h2
              first
              | exact Or.inl rfl
              | exact Or.inl (acquire_prelude_locks ..)
              | (refine Or.inr (Or.inl ⟨lock_id, ?_⟩)
                 rw [acquire_prelude_locks])
              | exact Or.inr (Or.inr ⟨lock_id, rfl⟩))
           | simp at h)

/-- One analyzed event preserves the lock-map invariant: an Acquire inserts
`{Some(T), true, _}` and a Release inserts `{None, false, _}`, both
consistent. -/
theorem analyze_event_locks_consistent (arguments : Arguments) (event : Event)
    (st : AnalyzerState) (line : Nat) (result : Except AnalyzerError Unit)
    (st' : AnalyzerState) (h : analyze_event arguments event st line = some (result, st'))
    (hc : locksConsistent st.locks) : locksConsistent st'.locks := by
  rcases analyze_event_locks arguments event st line result st' h with
    heq | ⟨lock_id, heq⟩ | ⟨lock_id, heq⟩ <;> rw [heq]
  · exact hc
  · exact locksConsistent_insert st.locks lock_id _ hc (by simp)
  · exact locksConsistent_insert st.locks lock_id _ hc (by simp)

/-- The event loop preserves the lock-map invariant. -/
theorem processEvents_locks_consistent (arguments : Arguments) (events : List Event) :
    ∀ (st : AnalyzerState) (row : Nat) (errors : List AnalyzerError)
      (st' : AnalyzerState) (row' : Nat) (errors' : List AnalyzerError),
      processEvents arguments events st row errors = some (st', row', errors') →
      locksConsistent st.locks → locksConsistent st'.locks := by
  induction events with
  | nil =>
    intro st row errors st' row' errors' h hc
    unfold processEvents at h
    rw [Option.some_inj, Prod.mk.injEq] at h
    rw [← h.1]
    exact hc
  | cons event rest ih =>
    intro st row errors st' row' errors' h hc
    unfold processEvents at h
    rcases ha : analyze_event arguments event st row with _ | ⟨result, stm⟩ <;> rw [ha] at h
    · simp at h
    · exact ih stm (row + 1) _ st' row' errors' h
        (analyze_event_locks_consistent arguments event st row result stm ha hc)

/-- Claim C9: for every run and every lock id in the lock map, after any
prefix of events the lock's `locked` flag is true exactly when its `owner` is
`Some`: the map starts empty and every insert writes `{Some(T), true, _}` or
`{None, false, _}`. -/
theorem C9_locked_iff_owner (arguments : Arguments) (events : List Event)
    (st : AnalyzerState) (row : Nat) (errors : List AnalyzerError)
    (h : processEvents arguments events initState 1 [] = some (st, row, errors))
    (k : ℤ) (lock : Lock) (hlk : lookupLock st.locks k = some lock) :
    lock.locked = true ↔ lock.owner.isSome = true :=
  processEvents_locks_consistent arguments events initState 1 [] st row errors h
    (fun k lock hk => by simp [lookupLock, initState] at hk) k lock hlk

/-- The state after a plain run of the single Acquire event. -/
def stAfterAcqPlain : AnalyzerState :=
  { locks := [(5, { owner := some 1, locked := true, row := 1 })], graphviz := ∅,
    lock_dependencies := [] }

/-- Witness for C9 on a one-event run. -/
theorem C9_locked_iff_owner_witness :
    processEvents argsPlain [evAcq] initState 1 [] = some (stAfterAcqPlain, 2, []) ∧
    lookupLock stAfterAcqPlain.locks 5 = some { owner := some 1, locked := true, row := 1 } ∧
    (({ owner := some 1, locked := true, row := 1 } : Lock).locked = true ↔
      ({ owner := some 1, locked := true, row := 1 } : Lock).owner.isSome = true) :=
  ⟨by decide, by decide,
    C9_locked_iff_owner argsPlain [evAcq] stAfterAcqPlain 2 [] (by decide) 5
      { owner := some 1, locked := true, row := 1 } (by decide)⟩

end TraceAnalyzer
